import Mathlib

/-!
Verification of the QuietHire orchestration core against its specification.

The Go workflow and activity code is shallowly embedded: each Temporal workflow
becomes a pure Lean function parameterised by an environment record that gives
the outcome of every activity or child-workflow invocation (an `Except String`
value: `.error` is a task error after the retry policy is exhausted, `.ok` is
the recorded result).  A workflow that in Go returns `(*Result, error)` is
embedded as a function returning `Option Result × Option String`, translating
every `return` statement literally, so claims about "returns a non-nil result
and a nil error" are about the embedded control flow, not baked into the types.
-/

namespace QuietHire

/-! ## Data model of the career-page crawl (apps/api/internal/workflows, crawl workflow file) -/

/-- A job link extracted from career-page HTML (the anonymous struct with
`url` and `title` fields in `CareerPageCrawlWorkflow`). -/
structure JobLink where
  url : String
  title : String
deriving Repr, DecidableEq

/-- Result shape of the `CrawlCareerPage` activity as decoded by the workflow
(anonymous struct with URL, HTML, Error, Success). -/
structure CrawlPageResult where
  url : String
  html : String
  error : String
  success : Bool
deriving Repr, DecidableEq

/-- A parsed job record (the `map[string]interface{}` produced by `ParseJobPage`),
restricted to the fields the orchestration core inspects or the quality gate
needs: the two normalised source fields and the 0-100 quality score. -/
structure ParsedJob where
  title : String
  company : String
  score : Int
  source_url : Option String
  source_platform : Option String
deriving Repr, DecidableEq

/-- Input of `CareerPageCrawlWorkflow`. -/
structure CareerPageCrawlInput where
  url : String
  companyName : String
  companyId : Int
deriving Repr, DecidableEq

/-- Result of `CareerPageCrawlWorkflow` (Duration is not modelled). -/
structure CareerPageCrawlResult where
  url : String
  errorMessage : String
  jobsFound : Nat
  jobsStored : Nat
  success : Bool
deriving Repr, DecidableEq

/-- Environment of recorded activity outcomes consumed by
`CareerPageCrawlWorkflow`: the `CrawlCareerPage`, `ExtractJobLinks`,
`ParseJobPage` and `StoreJobsInClickHouse` activities. -/
structure CrawlEnv where
  crawlPage : String → Except String CrawlPageResult
  extractJobLinks : String → String → Except String (List JobLink)
  parseJobPage : String → String → String → Except String (Option ParsedJob)
  storeJobs : List ParsedJob → String → Except String Nat

/-- Step-5 normalisation in the workflow loop: default `source_url` to the
crawled link and `source_platform` to `"career_page"` when absent or empty. -/
def normalizeJob (linkURL : String) (pj : ParsedJob) : ParsedJob :=
  let pj1 :=
    if pj.source_url = none ∨ pj.source_url = some "" then
      { pj with source_url := some linkURL }
    else pj
  if pj1.source_platform = none ∨ pj1.source_platform = some "" then
    { pj1 with source_platform := some "career_page" }
  else pj1

/-- Body of the per-link loop in `CareerPageCrawlWorkflow` step 3: crawl the
job page, skip on crawl error or non-success, parse it, skip on parse error,
skip the `nil` (NotParseable) sentinel, otherwise normalise. -/
def processJobLink (env : CrawlEnv) (companyName : String) (link : JobLink) :
    Option ParsedJob :=
  match env.crawlPage link.url with
  | .error _ => none
  | .ok pr =>
    if pr.success then
      match env.parseJobPage link.url pr.html companyName with
      | .error _ => none
      | .ok none => none
      | .ok (some pj) => some (normalizeJob link.url pj)
    else none

/-- The hard-coded fan-out cap of `CareerPageCrawlWorkflow` (`maxJobsToCrawl := 5`). -/
def maxJobsToCrawl : Nat := 5

/-- Step-3 truncation: if extracted links exceed the cap, keep the first cap only. -/
def retainedJobLinks (jobLinks : List JobLink) : List JobLink :=
  if jobLinks.length > maxJobsToCrawl then jobLinks.take maxJobsToCrawl else jobLinks

/-- Embedding of `CareerPageCrawlWorkflow` (crawl workflow file): fetch the
career page, extract job links, cap the fan-out, fetch and parse each retained
link, and batch-store the parsed jobs.  Every Go `return` is translated
literally; the function returns the pair (result pointer, error). -/
def CareerPageCrawlWorkflow (env : CrawlEnv) (input : CareerPageCrawlInput) :
    Option CareerPageCrawlResult × Option String :=
  let result0 : CareerPageCrawlResult :=
    { url := input.url, errorMessage := "", jobsFound := 0, jobsStored := 0,
      success := false }
  match env.crawlPage input.url with
  | .error e =>
    (some { result0 with errorMessage := "failed to crawl page: " ++ e }, none)
  | .ok crawlResult =>
    if crawlResult.success then
      match env.extractJobLinks input.url crawlResult.html with
      | .error e =>
        (some { result0 with errorMessage := "failed to extract job links: " ++ e },
         none)
      | .ok jobLinks =>
        if jobLinks.length = 0 then
          (some { result0 with success := true }, none)
        else
          let links := retainedJobLinks jobLinks
          let jobs := links.filterMap (processJobLink env input.companyName)
          if jobs.length = 0 then
            (some { result0 with jobsFound := links.length, success := true }, none)
          else
            match env.storeJobs jobs input.url with
            | .error e =>
              (some { result0 with
                        jobsFound := links.length
                        errorMessage := "failed to store jobs: " ++ e }, none)
            | .ok storedCount =>
              (some { result0 with
                        jobsFound := links.length
                        jobsStored := storedCount
                        success := true }, none)
    else
      (some { result0 with
              errorMessage := "crawl unsuccessful: " ++ crawlResult.error }, none)

/-- Number of `CrawlCareerPage` activity invocations the step-3 loop performs
(one per retained link; `ParseJobPage` invocations are at most this many). -/
def jobPageFetchCount (env : CrawlEnv) (input : CareerPageCrawlInput) : Nat :=
  match env.crawlPage input.url with
  | .error _ => 0
  | .ok crawlResult =>
    if crawlResult.success then
      match env.extractJobLinks input.url crawlResult.html with
      | .error _ => 0
      | .ok jobLinks =>
        if jobLinks.length = 0 then 0 else (retainedJobLinks jobLinks).length
    else 0

/-- Modelled from the spec: the `StoreJobsInClickHouse` activity invoked by
`CareerPageCrawlWorkflow` is not among the sources here (only its callers and
documentation are).  Per the spec, the Quality Gate "accepts a parsed job
record and a numeric score; rejects records below a threshold (default 70/100)
before they reach storage", and the batch store returns the count of jobs
stored. -/
def StoreJobsModel (threshold : Int) (jobs : List ParsedJob) : Nat :=
  (jobs.filter (fun j => !decide (j.score < threshold))).length

/-- Default quality-gate threshold from the spec (70 of 100). -/
def qualityGateThreshold : Int := 70

/-! ## Data model of discovery (discovery workflow and activities files) -/

/-- Structure `CompanyInfo` from the discovery workflow file. -/
structure CompanyInfo where
  name : String
  domain : String
  description : String
  source : String
deriving Repr, DecidableEq

/-- Structure `CareerPageInfo` from the discovery workflow file (Confidence is a Go
float64; modelled as a rational, on which max and comparison are exact). -/
structure CareerPageInfo where
  url : String
  domain : String
  pageType : String
  atsPlatform : String
  confidence : Rat
  priority : Int
deriving Repr, DecidableEq

/-- Structure `ATSInfo` from the discovery workflow file. -/
structure ATSInfo where
  url : String
  platform : String
  confidence : Rat
  isATS : Bool
deriving Repr, DecidableEq

/-- Structure `DiscoveryInput` from the discovery workflow file. -/
structure DiscoveryInput where
  query : String
  sources : List String
  maxResults : Int
deriving Repr, DecidableEq

/-- Structure `DiscoveryResult` from the discovery workflow file (Duration not modelled;
the ATS histogram, a Go map, is modelled as an association list). -/
structure DiscoveryResult where
  atsPlatforms : List (String × Nat)
  companiesFound : Nat
  careerPagesFound : Nat
  totalURLsQueued : Nat
deriving Repr, DecidableEq

/-- Environment of recorded activity outcomes for `CompanyDiscoveryWorkflow`:
`sourceResult` gives the outcome of the per-source discovery activity
(`DiscoverCompaniesFromGitHub`, `DiscoverCompaniesFromGoogleDorks`,
`AddCompanyManually`, keyed by the source tag). -/
structure DiscoveryEnv where
  sourceResult : String → Except String (List CompanyInfo)
  discoverCareerPages : String → String → Except String (List CareerPageInfo)
  enumerateSubdomains : String → Except String (List CareerPageInfo)
  detectATS : String → Except String ATSInfo
  queueURLs : List CareerPageInfo → Except String Nat

/-- The step-1 `switch`: a future is launched only for the recognised source
tags, in the order the input lists them. -/
def enabledDiscoverySources (sources : List String) : List String :=
  sources.filter (fun s => decide (s = "github" ∨ s = "google_dork" ∨ s = "manual"))

/-- Fan-in accumulation step shared by the collection loops: append a
successful result list, skip a failed future. -/
def collectListResult {α : Type} (acc : List α) (r : Except String (List α)) :
    List α :=
  match r with
  | .error _ => acc
  | .ok cs => acc ++ cs

/-- The step-1 fan-in loop: append each successful result list in future
order, skipping failed sources. -/
def discoveredCompanies (env : DiscoveryEnv) (sources : List String) :
    List CompanyInfo :=
  (enabledDiscoverySources sources).foldl
    (fun acc s => collectListResult acc (env.sourceResult s)) []

/-- Increment of the ATS histogram (Go map increment, as an association list). -/
def bumpHistogram (h : List (String × Nat)) (k : String) : List (String × Nat) :=
  if h.any (fun p => decide (p.1 = k)) then
    h.map (fun p => if p.1 = k then (p.1, p.2 + 1) else p)
  else h ++ [(k, 1)]

/-- Embedding of `CompanyDiscoveryWorkflow` (discovery workflow file):
source fan-out, per-company career-page and subdomain fan-out, ATS detection,
URL queueing.  Step 5 (spawning a child `CareerPageCrawlWorkflow` per page)
only logs a success count; the returned result does not depend on it, so it is
not part of the result computation.  Every error is logged and skipped, and
the Go function ends with a single `return result, nil`. -/
def CompanyDiscoveryWorkflow (env : DiscoveryEnv) (input : DiscoveryInput) :
    Option DiscoveryResult × Option String :=
  let allCompanies := discoveredCompanies env input.sources
  let pageFutures := allCompanies.flatMap
    (fun c => [env.discoverCareerPages c.domain c.name,
               env.enumerateSubdomains c.domain])
  let allCareerPages := pageFutures.foldl collectListResult []
  let hist := allCareerPages.foldl
    (fun h p =>
      match env.detectATS p.url with
      | .error _ => h
      | .ok info =>
        if info.isATS = true ∧ info.platform ≠ "" then bumpHistogram h info.platform
        else h) []
  let queued :=
    match env.queueURLs allCareerPages with
    | .error _ => 0
    | .ok n => n
  (some { atsPlatforms := hist
          companiesFound := allCompanies.length
          careerPagesFound := allCareerPages.length
          totalURLsQueued := queued }, none)

/-- Structure `ContinuousDiscoveryInput` from the discovery workflow file. -/
structure ContinuousDiscoveryInput where
  githubQuery : String
  dorkQuery : String
  staleThresholdDays : Int
  maxNewCompanies : Int
  runGitHubDiscovery : Bool
  runDorkDiscovery : Bool
deriving Repr, DecidableEq

/-- Environment of recorded outcomes for `ContinuousDiscoveryWorkflow`:
the `GetStaleCompanies` and `UpdateCompanyLastCrawled` activities and the
`CompanyDiscoveryWorkflow` children. -/
structure ContinuousEnv where
  getStaleCompanies : Int → Except String (List CompanyInfo)
  updateCompanyLastCrawled : String → Except String Unit
  childDiscovery : DiscoveryInput → Except String DiscoveryResult

/-- The per-stale-company child inputs: manual/seed mode on the domain of the
company, max results 10 (step 2 of `ContinuousDiscoveryWorkflow`). -/
def staleCompanyDiscoveryInputs (staleCompanies : List CompanyInfo) :
    List DiscoveryInput :=
  staleCompanies.map (fun c =>
    { query := c.domain, sources := ["manual"], maxResults := 10 })

/-- All child `CompanyDiscoveryWorkflow` inputs spawned by one run of
`ContinuousDiscoveryWorkflow`, in spawn order: one per stale company, then the
optional GitHub and Google-Dork strategy children. -/
def continuousDiscoveryChildren (input : ContinuousDiscoveryInput)
    (staleCompanies : List CompanyInfo) : List DiscoveryInput :=
  staleCompanyDiscoveryInputs staleCompanies
    ++ (if input.runGitHubDiscovery then
          [{ query := input.githubQuery, sources := ["github"],
             maxResults := input.maxNewCompanies }]
        else [])
    ++ (if input.runDorkDiscovery then
          [{ query := input.dorkQuery, sources := ["google_dork"],
             maxResults := input.maxNewCompanies }]
        else [])

/-- Embedding of `ContinuousDiscoveryWorkflow` (discovery workflow file).  It
returns only an error (`none` = Go `nil`).  A failed `GetStaleCompanies`
lookup is the only error path.  The `UpdateCompanyLastCrawled` activity is
launched with its future discarded (`_ = workflow.ExecuteActivity(...)`), so
its outcome cannot influence anything; child failures are logged and skipped
in the final aggregation loop, whose totals are only logged. -/
def ContinuousDiscoveryWorkflow (env : ContinuousEnv)
    (input : ContinuousDiscoveryInput) : Option String :=
  match env.getStaleCompanies input.staleThresholdDays with
  | .error e => some e
  | .ok staleCompanies =>
    let children := continuousDiscoveryChildren input staleCompanies
    let _totals : Nat × Nat := children.foldl
      (fun acc di =>
        match env.childDiscovery di with
        | .error _ => acc
        | .ok r => (acc.1 + r.companiesFound, acc.2 + r.totalURLsQueued)) (0, 0)
    none

/-- A row of the `companies` table that matters to the staleness filter. -/
structure CompanyRow where
  info : CompanyInfo
  lastDiscoveredAt : Int
deriving Repr, DecidableEq

/-- Modelled from the spec: the implementation of the `GetStaleCompanies`
activity is not among the sources here (only its caller, a doc test sketch and
the `companies` schema are).  Per the spec it must "find companies whose
last-discovered timestamp is older than `threshold`" (threshold in days;
timestamps here are measured in days on one clock `now`). -/
def GetStaleCompaniesModel (now thresholdDays : Int) (rows : List CompanyRow) :
    List CompanyInfo :=
  (rows.filter (fun r => decide (r.lastDiscoveredAt < now - thresholdDays))).map
    (fun r => r.info)

/-! ## Persistence models -/

/-- A row of the Postgres `discovered_urls` table (osint-schema.sql), with the
columns `QueueURLsForCrawling` writes. -/
structure URLRow where
  companyId : Option Int
  url : String
  urlHash : String
  pageType : String
  confidence : Rat
  atsPlatform : String
  discoveredVia : String
  priority : Int
deriving Repr, DecidableEq

/-- Environment for the `QueueURLsForCrawling` activity: the URL hash function
(SHA-256 hex in the source), the `companies` lookup by domain (`.error` is a
database error other than no-rows; `.ok none` is `sql.ErrNoRows`), and whether
a given insert statement fails. -/
structure QueueEnv where
  urlHash : String → String
  lookupCompany : String → Except String (Option Int)
  insertFails : String → Bool

/-- The `INSERT ... ON CONFLICT (url_hash) DO UPDATE` statement of
`QueueURLsForCrawling` against the `UNIQUE(url_hash)` constraint: on conflict,
set confidence and priority to `GREATEST` of stored and excluded values. -/
def upsertDiscoveredURL (db : List URLRow) (row : URLRow) : List URLRow :=
  if db.any (fun r => decide (r.urlHash = row.urlHash)) then
    db.map (fun r =>
      if r.urlHash = row.urlHash then
        { r with
            confidence := max r.confidence row.confidence
            priority := max r.priority row.priority }
      else r)
  else db ++ [row]

/-- The per-page loop body of `QueueURLsForCrawling`: look up the company by
domain (skip on a real database error), insert/upsert the discovered URL (skip
on insert error), count the page as queued otherwise. -/
def queueOnePage (env : QueueEnv) (st : List URLRow × Nat)
    (page : CareerPageInfo) : List URLRow × Nat :=
  match env.lookupCompany page.domain with
  | .error _ => st
  | .ok companyId =>
    if env.insertFails page.url then st
    else
      (upsertDiscoveredURL st.1
        { companyId := companyId
          url := page.url
          urlHash := env.urlHash page.url
          pageType := page.pageType
          confidence := page.confidence
          atsPlatform := page.atsPlatform
          discoveredVia := "osint"
          priority := page.priority },
       st.2 + 1)

/-- Embedding of the `QueueURLsForCrawling` activity (discovery activities
file).  `pg` is the Postgres connection: `none` models a nil `a.PostgreSQL`,
in which case the activity returns `len(pages)` and no error while touching no
state.  Returns ((queued count, error), final table state). -/
def QueueURLsForCrawling (env : QueueEnv) (pg : Option (List URLRow))
    (pages : List CareerPageInfo) : (Nat × Option String) × Option (List URLRow) :=
  match pg with
  | none => ((pages.length, none), none)
  | some db =>
    let st := pages.foldl (queueOnePage env) (db, 0)
    ((st.2, none), some st.1)

/-- A row of the ClickHouse `jobs` table (schema.sql), restricted to the
sorting-key columns, the job hash, the version and representative payload
fields. -/
structure JobRow where
  id : String
  job_hash : String
  title : String
  company : String
  description : String
  location : String
  real_score : Int
  posted_at : Int
  version : Nat
deriving Repr, DecidableEq

/-- The sorting key of the `jobs` table: `ORDER BY (company, location,
posted_at, id)`. -/
def jobSortKey (r : JobRow) : String × String × Int × String :=
  (r.company, r.location, r.posted_at, r.id)

/-- Inserting into a MergeTree table appends a row. -/
def insertJob (t : List JobRow) (r : JobRow) : List JobRow := t ++ [r]

/-- Fully-merged (FINAL) state of the `ENGINE = ReplacingMergeTree(version)`
table: among rows sharing a sorting key, only the row with the maximal
`version` survives, the last inserted one on ties. -/
def finalizeReplacing (t : List JobRow) : List JobRow :=
  (t.enum.filter (fun ir =>
    t.enum.all (fun js =>
      decide (js.1 = ir.1 ∨ jobSortKey js.2 ≠ jobSortKey ir.2 ∨
        js.2.version < ir.2.version ∨
        (js.2.version = ir.2.version ∧ js.1 < ir.1))))).map (fun ir => ir.2)

/-! ## Concrete fixtures used by witnesses and counterexamples -/

def careersURL : String := "https://example.com/careers"

def linkA : JobLink := ⟨"https://example.com/jobs/1", "Engineer"⟩

def linkB : JobLink := ⟨"https://example.com/jobs/2", "Designer"⟩

def linkC : JobLink := ⟨"https://example.com/jobs/3", "Manager"⟩

def jobA : ParsedJob := ⟨"Engineer", "Example", 80, none, none⟩

def jobB : ParsedJob := ⟨"Designer", "Example", 60, none, none⟩

/-- A successful crawl response for a URL. -/
def pageOK (u : String) : CrawlPageResult :=
  ⟨u, "<html>" ++ u ++ "</html>", "", true⟩

/-- Environment of the end-to-end scenario from the spec: every fetch
succeeds, the career page yields 3 job links, the first two parse with
quality scores 80 and 60, the third has no structured data, and the store
applies the spec-modelled quality gate at the default threshold. -/
def scenarioEnv : CrawlEnv where
  crawlPage := fun u => .ok (pageOK u)
  extractJobLinks := fun _ _ => .ok [linkA, linkB, linkC]
  parseJobPage := fun u _ _ =>
    if u = linkA.url then .ok (some jobA)
    else if u = linkB.url then .ok (some jobB)
    else .ok none
  storeJobs := fun js _ => .ok (StoreJobsModel qualityGateThreshold js)

def scenarioInput : CareerPageCrawlInput := ⟨careersURL, "Example", 1⟩

/-- Like the scenario environment, but the career-page fetch itself fails. -/
def fetchFailEnv : CrawlEnv :=
  { scenarioEnv with crawlPage := fun _ => .error "connection refused" }

/-- Like the scenario environment, but no job page has structured data. -/
def notParseableEnv : CrawlEnv :=
  { scenarioEnv with parseJobPage := fun _ _ _ => .ok none }

def twelveLinks : List JobLink :=
  (List.range 12).map (fun i => ⟨"https://example.com/jobs/" ++ toString i, "Job"⟩)

/-- Like the scenario environment, but extraction yields 12 job links. -/
def twelveLinksEnv : CrawlEnv :=
  { scenarioEnv with extractJobLinks := fun _ _ => .ok twelveLinks }

/-! ## Helper lemmas -/

theorem append_left_ne_empty (s t : String) (hs : s ≠ "") : s ++ t ≠ "" := by
  intro h
  apply hs
  have h2 := congrArg String.length h
  rw [String.length_append] at h2
  have h3 : s.length = 0 := by
    have : ("" : String).length = 0 := rfl
    omega
  cases s with
  | mk data =>
    cases data with
    | nil => rfl
    | cons a as => simp [String.length] at h3

theorem normalizeJob_score (u : String) (pj : ParsedJob) :
    (normalizeJob u pj).score = pj.score := by
  unfold normalizeJob
  split <;> dsimp only <;> split <;> rfl

/-! ## Claim theorems -/

/-- C4: `CareerPageCrawlWorkflow` never propagates an orchestration-level
error: for every environment of activity outcomes it returns a non-nil result
object and a nil error; when the page fetch fails (task error, or a crawl
response with Success = false) the result has Success = false, a non-empty
error message and zero counts. -/
theorem careerPageCrawl_total (env : CrawlEnv) (input : CareerPageCrawlInput) :
    ∃ r : CareerPageCrawlResult,
      CareerPageCrawlWorkflow env input = (some r, none) ∧
      (∀ e, env.crawlPage input.url = .error e →
        r.success = false ∧ r.errorMessage ≠ "" ∧ r.jobsFound = 0 ∧
          r.jobsStored = 0) ∧
      (∀ cr, env.crawlPage input.url = .ok cr → cr.success = false →
        r.success = false ∧ r.errorMessage ≠ "" ∧ r.jobsFound = 0 ∧
          r.jobsStored = 0) := by
  unfold CareerPageCrawlWorkflow
  cases hfetch : env.crawlPage input.url with
  | error e =>
    refine ⟨_, rfl, fun e2 he2 => ?_, fun cr2 hcr2 _ => Except.noConfusion hcr2⟩
    exact ⟨rfl, append_left_ne_empty _ _ (by decide), rfl, rfl⟩
  | ok cr =>
    dsimp only
    by_cases hsucc : cr.success = true
    case neg =>
      rw [if_neg hsucc]
      refine ⟨_, rfl, fun e2 he2 => Except.noConfusion he2, fun cr2 hcr2 _ => ?_⟩
      cases hcr2
      exact ⟨rfl, append_left_ne_empty _ _ (by decide), rfl, rfl⟩
    case pos =>
      rw [if_pos hsucc]
      have vacS : ∀ P : Prop, ∀ cr2 : CrawlPageResult,
          Except.ok cr = (Except.ok cr2 : Except String CrawlPageResult) →
          cr2.success = false → P := by
        intro P cr2 hcr2 hf
        cases hcr2
        rw [hf] at hsucc
        exact Bool.noConfusion hsucc
      cases hext : env.extractJobLinks input.url cr.html with
      | error e =>
        exact ⟨_, rfl, fun e2 he2 => Except.noConfusion he2, fun cr2 hcr2 hf => vacS _ cr2 hcr2 hf⟩
      | ok jobLinks =>
        by_cases hlen : jobLinks.length = 0
        · simp only [hlen, if_true]
          exact ⟨_, rfl, fun e2 he2 => Except.noConfusion he2, fun cr2 hcr2 hf => vacS _ cr2 hcr2 hf⟩
        · simp only [hlen, if_false]
          by_cases hjobs : ((retainedJobLinks jobLinks).filterMap
              (processJobLink env input.companyName)).length = 0
          · simp only [hjobs, if_true]
            exact ⟨_, rfl, fun e2 he2 => Except.noConfusion he2, fun cr2 hcr2 hf => vacS _ cr2 hcr2 hf⟩
          · simp only [hjobs, if_false]
            cases hstore : env.storeJobs ((retainedJobLinks jobLinks).filterMap
                (processJobLink env input.companyName)) input.url with
            | error e =>
              exact ⟨_, rfl, fun e2 he2 => Except.noConfusion he2,
                fun cr2 hcr2 hf => vacS _ cr2 hcr2 hf⟩
            | ok storedCount =>
              exact ⟨_, rfl, fun e2 he2 => Except.noConfusion he2,
                fun cr2 hcr2 hf => vacS _ cr2 hcr2 hf⟩

/-- C3: semantic non-results are success, not failure: if link extraction
returns an empty list, or every retained job link yields the NotParseable
sentinel (`ParseJobPage` returns the nil map), `CareerPageCrawlWorkflow`
returns a result with Success = true and JobsStored = 0, never Success =
false. -/
theorem careerPageCrawl_nonresult_success (env : CrawlEnv)
    (input : CareerPageCrawlInput) (cr : CrawlPageResult) (ls : List JobLink)
    (hfetch : env.crawlPage input.url = .ok cr) (hsucc : cr.success = true)
    (hext : env.extractJobLinks input.url cr.html = .ok ls)
    (hnp : ls = [] ∨ ∀ l ∈ retainedJobLinks ls, ∀ pr, env.crawlPage l.url = .ok pr →
        pr.success = true →
        env.parseJobPage l.url pr.html input.companyName = .ok none) :
    ∃ r, CareerPageCrawlWorkflow env input = (some r, none) ∧
      r.success = true ∧ r.jobsStored = 0 := by
  unfold CareerPageCrawlWorkflow
  rw [hfetch]
  dsimp only
  rw [if_pos hsucc, hext]
  dsimp only
  rcases hnp with hnil | hnp
  · subst hnil
    exact ⟨_, rfl, rfl, rfl⟩
  · have hjobs : (retainedJobLinks ls).filterMap (processJobLink env input.companyName)
        = [] := by
      rw [List.filterMap_eq_nil_iff]
      intro l hl
      unfold processJobLink
      cases hcp : env.crawlPage l.url with
      | error e => rfl
      | ok pr =>
        dsimp only
        by_cases hps : pr.success = true
        · rw [if_pos hps, hnp l hl pr hcp hps]
        · rw [if_neg hps]
    by_cases hlen : ls.length = 0
    · rw [if_pos hlen]
      exact ⟨_, rfl, rfl, rfl⟩
    · rw [if_neg hlen, hjobs]
      exact ⟨_, rfl, rfl, rfl⟩

/-- C2: bounded fan-out cap: whenever the extracted-job-link list is longer
than the cap (5), `CareerPageCrawlWorkflow` retains exactly the first 5 links,
invokes the job-page fetch (and hence parse) at most 5 times, and reports
JobsFound = 5. -/
theorem careerPageCrawl_bounded_fanout (env : CrawlEnv)
    (input : CareerPageCrawlInput) (cr : CrawlPageResult) (ls : List JobLink)
    (hfetch : env.crawlPage input.url = .ok cr) (hsucc : cr.success = true)
    (hext : env.extractJobLinks input.url cr.html = .ok ls)
    (hlen : ls.length > maxJobsToCrawl) :
    retainedJobLinks ls = ls.take 5 ∧
    jobPageFetchCount env input = 5 ∧
    ∃ r, CareerPageCrawlWorkflow env input = (some r, none) ∧ r.jobsFound = 5 := by
  have hlen5 : ls.length > 5 := hlen
  have hret : retainedJobLinks ls = ls.take 5 := by
    unfold retainedJobLinks
    rw [if_pos hlen]
    rfl
  have hretlen : (retainedJobLinks ls).length = 5 := by
    rw [hret, List.length_take, min_eq_left (by omega)]
  have hlen0 : ¬ ls.length = 0 := by omega
  refine ⟨hret, ?_, ?_⟩
  · unfold jobPageFetchCount
    rw [hfetch]
    dsimp only
    rw [if_pos hsucc, hext]
    dsimp only
    rw [if_neg hlen0]
    exact hretlen
  · unfold CareerPageCrawlWorkflow
    rw [hfetch]
    dsimp only
    rw [if_pos hsucc, hext]
    dsimp only
    rw [if_neg hlen0]
    by_cases hjobs : ((retainedJobLinks ls).filterMap
        (processJobLink env input.companyName)).length = 0
    · rw [if_pos hjobs]
      exact ⟨_, rfl, hretlen⟩
    · rw [if_neg hjobs]
      cases hstore : env.storeJobs ((retainedJobLinks ls).filterMap
          (processJobLink env input.companyName)) input.url with
      | error e => exact ⟨_, rfl, hretlen⟩
      | ok storedCount => exact ⟨_, rfl, hretlen⟩

/-- C4 witness: the guarantees of `careerPageCrawl_total` at a concrete
environment whose page fetch fails. -/
theorem careerPageCrawl_total_witness :
    ∃ r : CareerPageCrawlResult,
      CareerPageCrawlWorkflow fetchFailEnv scenarioInput = (some r, none) ∧
      r.success = false ∧ r.errorMessage ≠ "" ∧ r.jobsFound = 0 ∧
        r.jobsStored = 0 := by
  obtain ⟨r, h1, h2, _⟩ := careerPageCrawl_total fetchFailEnv scenarioInput
  exact ⟨r, h1, h2 "connection refused" rfl⟩

/-- C3 witness: `careerPageCrawl_nonresult_success` at a concrete environment
where all three retained job links yield the NotParseable sentinel. -/
theorem careerPageCrawl_nonresult_success_witness :
    ∃ r, CareerPageCrawlWorkflow notParseableEnv scenarioInput = (some r, none) ∧
      r.success = true ∧ r.jobsStored = 0 :=
  careerPageCrawl_nonresult_success notParseableEnv scenarioInput
    (pageOK careersURL) [linkA, linkB, linkC] rfl rfl rfl
    (Or.inr (fun _ _ _ _ _ => rfl))

/-- C2 witness: `careerPageCrawl_bounded_fanout` at a concrete environment
with 12 extracted job links. -/
theorem careerPageCrawl_bounded_fanout_witness :
    retainedJobLinks twelveLinks = twelveLinks.take 5 ∧
    jobPageFetchCount twelveLinksEnv scenarioInput = 5 ∧
    ∃ r, CareerPageCrawlWorkflow twelveLinksEnv scenarioInput = (some r, none) ∧
      r.jobsFound = 5 :=
  careerPageCrawl_bounded_fanout twelveLinksEnv scenarioInput
    (pageOK careersURL) twelveLinks rfl rfl rfl
    (by rw [twelveLinks, List.length_map, List.length_range]; decide)

/-- C1 counterexample: in the end-to-end scenario of the spec (a career page
whose HTML yields 3 job links, of which 2 parse successfully with quality
scores 80 and 60, quality gate at the default 70), `CareerPageCrawlWorkflow`
reports JobsFound = 3 — the retained-link count, set before parsing — and not
JobsFound = 2 as claimed; exactly 1 job is stored. -/
theorem endToEnd_jobsFound_counterexample :
    CareerPageCrawlWorkflow scenarioEnv scenarioInput =
      (some { url := careersURL, errorMessage := "", jobsFound := 3,
              jobsStored := 1, success := true }, none) ∧
    (CareerPageCrawlWorkflow scenarioEnv scenarioInput).1.map
        CareerPageCrawlResult.jobsFound ≠ some 2 := by
  have h1 : CareerPageCrawlWorkflow scenarioEnv scenarioInput =
      (some { url := careersURL, errorMessage := "", jobsFound := 3,
              jobsStored := 1, success := true }, none) := by rfl
  refine ⟨h1, ?_⟩
  rw [h1]
  simp

/-- C1 (amended): end-to-end scenario with quality gating: for a career-page
crawl whose page yields 3 job links, of which 2 parse successfully with
quality scores 80 and 60, and with the spec-modelled quality-gated store at
the default threshold of 70, `CareerPageCrawlWorkflow` stores exactly 1 job
and returns JobsFound = 3 (the number of retained job links, counted before
parsing) and JobsStored = 1: records scoring below the threshold are rejected
by the store. -/
theorem endToEnd_quality_gate (env : CrawlEnv) (input : CareerPageCrawlInput)
    (cr pr1 pr2 pr3 : CrawlPageResult) (j1 j2 : ParsedJob) (l1 l2 l3 : JobLink)
    (hfetch : env.crawlPage input.url = .ok cr) (hcs : cr.success = true)
    (hext : env.extractJobLinks input.url cr.html = .ok [l1, l2, l3])
    (hf1 : env.crawlPage l1.url = .ok pr1) (hs1 : pr1.success = true)
    (hp1 : env.parseJobPage l1.url pr1.html input.companyName = .ok (some j1))
    (hsc1 : j1.score = 80)
    (hf2 : env.crawlPage l2.url = .ok pr2) (hs2 : pr2.success = true)
    (hp2 : env.parseJobPage l2.url pr2.html input.companyName = .ok (some j2))
    (hsc2 : j2.score = 60)
    (hf3 : env.crawlPage l3.url = .ok pr3) (hs3 : pr3.success = true)
    (hp3 : env.parseJobPage l3.url pr3.html input.companyName = .ok none)
    (hstore : ∀ js u, env.storeJobs js u =
      .ok (StoreJobsModel qualityGateThreshold js)) :
    CareerPageCrawlWorkflow env input =
      (some { url := input.url, errorMessage := "", jobsFound := 3,
              jobsStored := 1, success := true }, none) := by
  have hpl1 : processJobLink env input.companyName l1
      = some (normalizeJob l1.url j1) := by
    unfold processJobLink
    rw [hf1]
    dsimp only
    rw [if_pos hs1, hp1]
  have hpl2 : processJobLink env input.companyName l2
      = some (normalizeJob l2.url j2) := by
    unfold processJobLink
    rw [hf2]
    dsimp only
    rw [if_pos hs2, hp2]
  have hpl3 : processJobLink env input.companyName l3 = none := by
    unfold processJobLink
    rw [hf3]
    dsimp only
    rw [if_pos hs3, hp3]
  have hretained : retainedJobLinks [l1, l2, l3] = [l1, l2, l3] := by
    unfold retainedJobLinks
    rw [if_neg (by simp [maxJobsToCrawl])]
  have hfm : ([l1, l2, l3] : List JobLink).filterMap
      (processJobLink env input.companyName)
      = [normalizeJob l1.url j1, normalizeJob l2.url j2] := by
    simp [List.filterMap_cons, hpl1, hpl2, hpl3]
  have hsm : StoreJobsModel qualityGateThreshold
      [normalizeJob l1.url j1, normalizeJob l2.url j2] = 1 := by
    unfold StoreJobsModel qualityGateThreshold
    rw [List.filter_cons, List.filter_cons]
    rw [normalizeJob_score, normalizeJob_score, hsc1, hsc2]
    norm_num
  unfold CareerPageCrawlWorkflow
  rw [hfetch]
  dsimp only
  rw [if_pos hcs, hext]
  dsimp only
  rw [if_neg (by simp : ¬ ([l1, l2, l3] : List JobLink).length = 0)]
  rw [hretained, hfm]
  rw [if_neg (by simp : ¬ ([normalizeJob l1.url j1, normalizeJob l2.url j2]).length = 0)]
  rw [hstore]
  dsimp only
  rw [hsm]
  rfl

/-- C1 witness: the amended end-to-end scenario discharged at the concrete
scenario environment. -/
theorem endToEnd_quality_gate_witness :
    CareerPageCrawlWorkflow scenarioEnv scenarioInput =
      (some { url := scenarioInput.url, errorMessage := "", jobsFound := 3,
              jobsStored := 1, success := true }, none) :=
  endToEnd_quality_gate scenarioEnv scenarioInput
    (pageOK careersURL) (pageOK linkA.url) (pageOK linkB.url) (pageOK linkC.url)
    jobA jobB linkA linkB linkC
    rfl rfl rfl rfl rfl rfl rfl rfl rfl rfl rfl rfl rfl rfl
    (fun _ _ => rfl)

theorem foldl_collect_eq_flatten {α : Type} {β : Type}
    (f : β → Except String (List α)) (ss : List β) (acc : List α) :
    ss.foldl (fun acc s => collectListResult acc (f s)) acc
      = acc ++ (ss.filterMap (fun s => (f s).toOption)).flatten := by
  induction ss generalizing acc with
  | nil => simp
  | cons s ss ih =>
    cases h : f s with
    | error e =>
      have e1 : List.foldl (fun acc s => collectListResult acc (f s)) acc (s :: ss)
          = List.foldl (fun acc s => collectListResult acc (f s)) acc ss := by
        simp only [List.foldl_cons, h]
        rfl
      have e2 : List.filterMap (fun s => (f s).toOption) (s :: ss)
          = List.filterMap (fun s => (f s).toOption) ss := by
        simp only [List.filterMap_cons, h]
        rfl
      rw [e1, e2, ih]
    | ok cs =>
      have e1 : List.foldl (fun acc s => collectListResult acc (f s)) acc (s :: ss)
          = List.foldl (fun acc s => collectListResult acc (f s)) (acc ++ cs) ss := by
        simp only [List.foldl_cons, h]
        rfl
      have e2 : List.filterMap (fun s => (f s).toOption) (s :: ss)
          = cs :: List.filterMap (fun s => (f s).toOption) ss := by
        simp only [List.filterMap_cons, h]
        rfl
      rw [e1, e2, ih, List.flatten_cons]
      simp [List.append_assoc]

/-- C5: partial failure tolerance in the source fan-out: for every environment
of per-source outcomes and every input, `CompanyDiscoveryWorkflow` returns a
non-nil result and no error, the collected company list is the concatenation
of exactly the result lists of the successful sources (in future order,
failed sources skipped), and CompaniesFound is the length of that list. -/
theorem companyDiscovery_partial_failure (env : DiscoveryEnv)
    (input : DiscoveryInput) :
    ∃ r, CompanyDiscoveryWorkflow env input = (some r, none) ∧
      discoveredCompanies env input.sources =
        ((enabledDiscoverySources input.sources).filterMap
          (fun s => (env.sourceResult s).toOption)).flatten ∧
      r.companiesFound = (discoveredCompanies env input.sources).length := by
  refine ⟨_, rfl, ?_, rfl⟩
  unfold discoveredCompanies
  simpa using foldl_collect_eq_flatten env.sourceResult
    (enabledDiscoverySources input.sources) []

/-- C9: Continuous Discovery never aborts on per-company failure: provided
the initial stale-company lookup succeeds, `ContinuousDiscoveryWorkflow`
returns a nil error for every combination of child sub-orchestration outcomes;
and its behaviour is identical under any change to the
`UpdateCompanyLastCrawled` outcomes (the activity future is discarded), so a
failing timestamp update neither blocks nor aborts the run or any child. -/
theorem continuousDiscovery_no_abort (env env2 : ContinuousEnv)
    (input : ContinuousDiscoveryInput) (cs : List CompanyInfo)
    (hok : env.getStaleCompanies input.staleThresholdDays = .ok cs)
    (hg : env2.getStaleCompanies = env.getStaleCompanies)
    (hc : env2.childDiscovery = env.childDiscovery) :
    ContinuousDiscoveryWorkflow env input = none ∧
    ContinuousDiscoveryWorkflow env2 input =
      ContinuousDiscoveryWorkflow env input := by
  constructor
  · unfold ContinuousDiscoveryWorkflow
    rw [hok]
  · unfold ContinuousDiscoveryWorkflow
    rw [hg, hc]

def companyX : CompanyInfo := ⟨"Example", "example.com", "", "manual"⟩

def contInput : ContinuousDiscoveryInput :=
  ⟨"tech startup", "we are hiring", 7, 100, false, false⟩

def contEnvOK : ContinuousEnv where
  getStaleCompanies := fun _ => .ok [companyX]
  updateCompanyLastCrawled := fun _ => .ok ()
  childDiscovery := fun _ => .error "child failed"

def contEnvUpdFail : ContinuousEnv :=
  { contEnvOK with updateCompanyLastCrawled := fun _ => .error "update failed" }

/-- C9 witness: a concrete run where every child discovery fails and the
timestamp update fails still returns a nil error, identically to the run
where the update succeeds. -/
theorem continuousDiscovery_no_abort_witness :
    ContinuousDiscoveryWorkflow contEnvOK contInput = none ∧
    ContinuousDiscoveryWorkflow contEnvUpdFail contInput =
      ContinuousDiscoveryWorkflow contEnvOK contInput :=
  continuousDiscovery_no_abort contEnvOK contEnvUpdFail contInput [companyX]
    rfl rfl rfl

/-- C8: staleness filter correctness: a company is in the spec-modelled
stale-candidate list exactly when one of its rows has a last-discovered
timestamp older than the threshold (so a company touched within the window is
excluded, one older is included); when the stale lookup returns that list the
run completes with a nil error, and its per-company children are exactly one
manual/seed-mode `CompanyDiscoveryWorkflow` input per listed company on the
company domain. -/
theorem continuousDiscovery_staleness_filter (now thr : Int)
    (rows : List CompanyRow) (env : ContinuousEnv)
    (input : ContinuousDiscoveryInput)
    (hstale : env.getStaleCompanies input.staleThresholdDays =
      .ok (GetStaleCompaniesModel now thr rows))
    (hgh : input.runGitHubDiscovery = false)
    (hdk : input.runDorkDiscovery = false) :
    (∀ c, c ∈ GetStaleCompaniesModel now thr rows ↔
      ∃ r ∈ rows, r.info = c ∧ r.lastDiscoveredAt < now - thr) ∧
    ContinuousDiscoveryWorkflow env input = none ∧
    continuousDiscoveryChildren input (GetStaleCompaniesModel now thr rows) =
      (GetStaleCompaniesModel now thr rows).map
        (fun c => { query := c.domain, sources := ["manual"], maxResults := 10 }) := by
  refine ⟨?_, ?_, ?_⟩
  · intro c
    unfold GetStaleCompaniesModel
    simp only [List.mem_map, List.mem_filter, decide_eq_true_eq]
    constructor
    · rintro ⟨r, ⟨hr, hlt⟩, hinfo⟩
      exact ⟨r, hr, hinfo, hlt⟩
    · rintro ⟨r, hr, hinfo, hlt⟩
      exact ⟨r, ⟨hr, hlt⟩, hinfo⟩
  · unfold ContinuousDiscoveryWorkflow
    rw [hstale]
  · unfold continuousDiscoveryChildren staleCompanyDiscoveryInputs
    rw [hgh, hdk]
    simp

def freshRow : CompanyRow := ⟨⟨"Fresh", "fresh.com", "", "github"⟩, 95⟩

def staleRow : CompanyRow := ⟨⟨"Stale", "stale.com", "", "github"⟩, 80⟩

def staleEnv : ContinuousEnv where
  getStaleCompanies := fun _ => .ok (GetStaleCompaniesModel 100 7 [freshRow, staleRow])
  updateCompanyLastCrawled := fun _ => .ok ()
  childDiscovery := fun _ => .ok ⟨[], 0, 0, 0⟩

/-- C8 witness: at `now = 100`, threshold 7 days, the company last discovered
at 95 (within the window) is excluded and the one last discovered at 80 is
included, and the concrete run returns a nil error. -/
theorem continuousDiscovery_staleness_filter_witness :
    ContinuousDiscoveryWorkflow staleEnv contInput = none ∧
    staleRow.info ∈ GetStaleCompaniesModel 100 7 [freshRow, staleRow] ∧
    freshRow.info ∉ GetStaleCompaniesModel 100 7 [freshRow, staleRow] := by
  obtain ⟨hmem, hrun, hchildren⟩ := continuousDiscovery_staleness_filter 100 7
    [freshRow, staleRow] staleEnv contInput rfl rfl rfl
  refine ⟨hrun, ?_, ?_⟩
  · refine (hmem staleRow.info).mpr ⟨staleRow, by simp, rfl, by decide⟩
  · intro hmemf
    obtain ⟨r, hr, hinfo, hlt⟩ := (hmem freshRow.info).mp hmemf
    have hcases : r = freshRow ∨ r = staleRow := by
      simpa using hr
    rcases hcases with h | h
    · subst h
      revert hlt
      decide
    · subst h
      revert hinfo
      decide

/-- C10: when no PostgreSQL connection is available, `QueueURLsForCrawling`
returns a queued count equal to the full length of the input list and no
error, while persisting nothing. -/
theorem queueURLs_nil_connection (env : QueueEnv) (pages : List CareerPageInfo) :
    QueueURLsForCrawling env none pages = ((pages.length, none), none) := rfl

theorem upsert_fresh (db : List URLRow) (row : URLRow)
    (hdb : ∀ r ∈ db, r.urlHash ≠ row.urlHash) :
    upsertDiscoveredURL db row = db ++ [row] := by
  unfold upsertDiscoveredURL
  have hany : db.any (fun r => decide (r.urlHash = row.urlHash)) = false := by
    rw [List.any_eq_false]
    intro r hr
    simp only [decide_eq_true_eq]
    exact hdb r hr
  rw [hany]
  simp

theorem upsert_append_single (db : List URLRow) (a row : URLRow)
    (hdb : ∀ r ∈ db, r.urlHash ≠ row.urlHash) (ha : a.urlHash = row.urlHash) :
    upsertDiscoveredURL (db ++ [a]) row =
      db ++ [{ a with
                 confidence := max a.confidence row.confidence
                 priority := max a.priority row.priority }] := by
  unfold upsertDiscoveredURL
  have hany : (db ++ [a]).any (fun r => decide (r.urlHash = row.urlHash)) = true := by
    rw [List.any_eq_true]
    exact ⟨a, by simp, by simp [ha]⟩
  rw [hany]
  simp only [if_true, List.map_append]
  congr 1
  · exact (List.map_congr_left
      (fun r hr => if_neg (hdb r hr))).trans (List.map_id db)
  · simp [ha]

theorem upsert_never_lowers (db : List URLRow) (row r : URLRow) (hr : r ∈ db) :
    ∃ r2 ∈ upsertDiscoveredURL db row, r2.urlHash = r.urlHash ∧
      r.confidence ≤ r2.confidence ∧ r.priority ≤ r2.priority := by
  unfold upsertDiscoveredURL
  by_cases hany : db.any (fun x => decide (x.urlHash = row.urlHash)) = true
  · rw [if_pos hany]
    by_cases hh : r.urlHash = row.urlHash
    · refine ⟨{ r with
                  confidence := max r.confidence row.confidence
                  priority := max r.priority row.priority },
        ?_, rfl, le_max_left _ _, le_max_left _ _⟩
      have hm := List.mem_map_of_mem (fun x : URLRow =>
        if x.urlHash = row.urlHash then
          { x with
              confidence := max x.confidence row.confidence
              priority := max x.priority row.priority }
        else x) hr
      dsimp only at hm
      rw [if_pos hh] at hm
      exact hm
    · refine ⟨r, ?_, rfl, le_rfl, le_rfl⟩
      have hm := List.mem_map_of_mem (fun x : URLRow =>
        if x.urlHash = row.urlHash then
          { x with
              confidence := max x.confidence row.confidence
              priority := max x.priority row.priority }
        else x) hr
      dsimp only at hm
      rw [if_neg hh] at hm
      exact hm
  · rw [if_neg hany]
    exact ⟨r, List.mem_append_left _ hr, rfl, le_rfl, le_rfl⟩

/-- The single row left behind when the same URL is queued twice: the first
metadata of the first insert with max-merged confidence and priority. -/
def mergedRow (env : QueueEnv) (p1 p2 : CareerPageInfo) (c1 : Option Int) :
    URLRow :=
  { companyId := c1
    url := p1.url
    urlHash := env.urlHash p1.url
    pageType := p1.pageType
    confidence := max p1.confidence p2.confidence
    atsPlatform := p1.atsPlatform
    discoveredVia := "osint"
    priority := max p1.priority p2.priority }

/-- The row written by the first insert alone. -/
def firstRow (env : QueueEnv) (p1 : CareerPageInfo) (c1 : Option Int) : URLRow :=
  { companyId := c1
    url := p1.url
    urlHash := env.urlHash p1.url
    pageType := p1.pageType
    confidence := p1.confidence
    atsPlatform := p1.atsPlatform
    discoveredVia := "osint"
    priority := p1.priority }

/-- C6: idempotent max-merge upsert of DiscoveredURLs: queueing two pages with
the same URL — in one call or across two calls — against a table with no row
for that URL hash leaves exactly one row for the hash, whose confidence and
priority are the max of the two supplied values; and in general an upsert
never lowers the stored confidence or priority of any existing row. -/
theorem queueURLs_idempotent_upsert (env : QueueEnv) (db : List URLRow)
    (p1 p2 : CareerPageInfo) (c1 c2 : Option Int)
    (hurl : p2.url = p1.url)
    (hdb : ∀ r ∈ db, r.urlHash ≠ env.urlHash p1.url)
    (hl1 : env.lookupCompany p1.domain = .ok c1)
    (hl2 : env.lookupCompany p2.domain = .ok c2)
    (hins : env.insertFails p1.url = false) :
    QueueURLsForCrawling env (some db) [p1, p2]
      = ((2, none), some (db ++ [mergedRow env p1 p2 c1])) ∧
    QueueURLsForCrawling env (QueueURLsForCrawling env (some db) [p1]).2 [p2]
      = ((1, none), some (db ++ [mergedRow env p1 p2 c1])) ∧
    ((db ++ [mergedRow env p1 p2 c1]).filter
        (fun r => decide (r.urlHash = env.urlHash p1.url))).length = 1 ∧
    (∀ r ∈ db ++ [mergedRow env p1 p2 c1], r.urlHash = env.urlHash p1.url →
      r.confidence = max p1.confidence p2.confidence ∧
      r.priority = max p1.priority p2.priority) ∧
    (∀ (db0 : List URLRow) (row r : URLRow), r ∈ db0 →
      ∃ r2 ∈ upsertDiscoveredURL db0 row, r2.urlHash = r.urlHash ∧
        r.confidence ≤ r2.confidence ∧ r.priority ≤ r2.priority) := by
  have hash2 : env.urlHash p2.url = env.urlHash p1.url := by rw [hurl]
  have hstep1 : queueOnePage env (db, 0) p1 = (db ++ [firstRow env p1 c1], 1) := by
    unfold queueOnePage
    rw [hl1]
    dsimp only
    rw [if_neg (by simp [hins])]
    rw [upsert_fresh db _ (fun r hr => hdb r hr)]
    rfl
  have hstep2 : ∀ n : Nat,
      queueOnePage env (db ++ [firstRow env p1 c1], n) p2
        = (db ++ [mergedRow env p1 p2 c1], n + 1) := by
    intro n
    unfold queueOnePage
    rw [hl2]
    dsimp only
    rw [if_neg (by simp [hurl, hins])]
    rw [upsert_append_single db (firstRow env p1 c1) _
      (fun r hr => by
        show r.urlHash ≠ env.urlHash p2.url
        rw [hash2]
        exact hdb r hr)
      (by show env.urlHash p1.url = env.urlHash p2.url; rw [hash2])]
    rfl
  have hmain : QueueURLsForCrawling env (some db) [p1, p2]
      = ((2, none), some (db ++ [mergedRow env p1 p2 c1])) := by
    unfold QueueURLsForCrawling
    simp only [List.foldl_cons, List.foldl_nil]
    rw [hstep1, hstep2 1]
  have hcall1 : QueueURLsForCrawling env (some db) [p1]
      = ((1, none), some (db ++ [firstRow env p1 c1])) := by
    unfold QueueURLsForCrawling
    simp only [List.foldl_cons, List.foldl_nil]
    rw [hstep1]
  refine ⟨hmain, ?_, ?_, ?_, fun db0 row r hr => upsert_never_lowers db0 row r hr⟩
  · rw [hcall1]
    unfold QueueURLsForCrawling
    simp only [List.foldl_cons, List.foldl_nil]
    rw [hstep2 0]
  · rw [List.filter_append]
    have hnil : db.filter (fun r => decide (r.urlHash = env.urlHash p1.url)) = [] := by
      rw [List.filter_eq_nil_iff]
      intro r hr
      simp only [decide_eq_true_eq]
      exact hdb r hr
    rw [hnil]
    simp [mergedRow]
  · intro r hr hh
    rcases List.mem_append.mp hr with hin | hin
    · exact absurd hh (hdb r hin)
    · have : r = mergedRow env p1 p2 c1 := by simpa using hin
      subst this
      exact ⟨rfl, rfl⟩

def qEnv : QueueEnv where
  urlHash := fun u => "sha256:" ++ u
  lookupCompany := fun _ => .ok (some 7)
  insertFails := fun _ => false

def pageQ1 : CareerPageInfo :=
  ⟨"https://example.com/careers", "example.com", "careers", "", (7 : Rat)/10, 50⟩

def pageQ2 : CareerPageInfo :=
  ⟨"https://example.com/careers", "example.com", "careers", "", (9 : Rat)/10, 30⟩

/-- C6 witness: queueing the same URL twice (confidences 7/10 then 9/10,
priorities 50 then 30) into an empty table leaves exactly the single
max-merged row, whose priority is 50. -/
theorem queueURLs_idempotent_upsert_witness :
    QueueURLsForCrawling qEnv (some []) [pageQ1, pageQ2]
      = ((2, none), some ([] ++ [mergedRow qEnv pageQ1 pageQ2 (some 7)])) ∧
    (([] ++ [mergedRow qEnv pageQ1 pageQ2 (some 7)]).filter
        (fun r : URLRow => decide (r.urlHash = qEnv.urlHash pageQ1.url))).length = 1 ∧
    (mergedRow qEnv pageQ1 pageQ2 (some 7)).priority = 50 := by
  obtain ⟨h1, h2, h3, h4, h5⟩ := queueURLs_idempotent_upsert qEnv [] pageQ1 pageQ2
    (some 7) (some 7) rfl (by simp) rfl rfl rfl
  refine ⟨h1, h3, ?_⟩
  show max pageQ1.priority pageQ2.priority = 50
  decide

/-! ## ClickHouse jobs-table claims -/

def jobV1 : JobRow :=
  ⟨"job-1", "hash-1", "Engineer", "Example", "first posting", "Berlin", 80, 0, 1⟩

def jobV2 : JobRow :=
  ⟨"job-1", "hash-1", "Engineer", "Example", "second posting", "Remote", 85, 0, 2⟩

/-- C7 counterexample: the jobs table deduplicates by its sorting key
(company, location, posted_at, id), which does not include the job hash.  Two
rows with the same job hash at versions 1 and 2 that differ in a sorting-key
field (here location) are BOTH retained after a full merge, so the store does
not retain only the version-2 fields for that job hash, and the version-1
write arriving second also survives. -/
theorem jobs_replaceByHash_counterexample :
    jobV1.job_hash = jobV2.job_hash ∧ jobV1.version = 1 ∧ jobV2.version = 2 ∧
    finalizeReplacing (insertJob (insertJob [] jobV1) jobV2) = [jobV1, jobV2] ∧
    finalizeReplacing (insertJob (insertJob [] jobV2) jobV1) = [jobV2, jobV1] := by
  refine ⟨rfl, rfl, rfl, ?_, ?_⟩ <;> rfl

/-- C7 (amended): replacement happens per sorting key (company, location,
posted_at, id): for two job rows agreeing on the sorting key, inserting the
lower-version and higher-version rows in either order leaves exactly the
higher-version row after a full merge — in particular an older write arriving
after a newer one does not regress the retained record. -/
theorem jobs_replaceBySortKey (a b : JobRow)
    (hk : jobSortKey a = jobSortKey b) (hv : a.version < b.version) :
    finalizeReplacing (insertJob (insertJob [] a) b) = [b] ∧
    finalizeReplacing (insertJob (insertJob [] b) a) = [b] := by
  have h1 : ¬ b.version < a.version := by omega
  have h2 : ¬ a.version = b.version := by omega
  have h3 : ¬ b.version = a.version := by omega
  constructor
  · show finalizeReplacing [a, b] = [b]
    unfold finalizeReplacing
    have henum : ([a, b] : List JobRow).enum = [(0, a), (1, b)] := rfl
    rw [henum]
    simp [List.filter_cons, hk, hv, h1, h3]
  · show finalizeReplacing [b, a] = [b]
    unfold finalizeReplacing
    have henum : ([b, a] : List JobRow).enum = [(0, b), (1, a)] := rfl
    rw [henum]
    simp [List.filter_cons, hk, hv, h1, h2, h3]

def jobV2same : JobRow :=
  ⟨"job-1", "hash-1", "Engineer", "Example", "second posting", "Berlin", 85, 0, 2⟩

/-- C7 witness: for two concrete rows with equal sorting keys at versions 1
and 2, only the version-2 row survives the merge in either insertion order. -/
theorem jobs_replaceBySortKey_witness :
    finalizeReplacing (insertJob (insertJob [] jobV1) jobV2same) = [jobV2same] ∧
    finalizeReplacing (insertJob (insertJob [] jobV2same) jobV1) = [jobV2same] :=
  jobs_replaceBySortKey jobV1 jobV2same rfl (by decide)

end QuietHire
